import Mathlib

/-!
Verification of the provisioning orchestration core of `src/upload/microPython.js`
(class `MicroPython`).

The embedding models one provisioning run (`MicroPython.flash`) as a pure
function of an environment `Env` that records what each external process
invocation would do: its exit status (or a launch failure) and the data its
stdout handler would deliver.  Every spawned process in the source installs an
`exit` listener only; exit code `0` resolves the surrounding promise and any
other exit code rejects it.  No `error` listener is ever installed, so a spawn
launch failure settles nothing; a run that hits one is modelled with outcome
`none` (the promise neither resolves nor rejects).

File sizes, block counts and exit codes are JS numbers in the source; they are
modelled as `Nat`/`Int`.  The one place the source divides
(`Math.ceil(fileSize / this._bsize)`, line 128) is modelled by natural ceiling
division `(fileSize + bsize - 1) / bsize`, which agrees with the source exactly
when `bsize > 0`; theorems about the division therefore carry a `0 < bsize`
hypothesis (the zero case is treated separately as a reachability question).
-/

/-- Outcome of one external process invocation: an `exit` event with a code
(`null` is possible in Node and is modelled as `none`), or a launch failure,
for which the source installs no handler. -/
inductive ProcResult where
  | exit (code : Option Int) : ProcResult
  | launchError : ProcResult
  deriving DecidableEq

/-- External processes the orchestrator can spawn, in the source:
`obmpy ls`, `obmpy restspace`, `esptool erase_flash`, `esptool write_flash`,
`kflash`, and `obmpy put <file>`. -/
inductive Proc where
  | lsProc : Proc
  | spaceProc : Proc
  | eraseProc : Proc
  | writeProc : Proc
  | kflashProc : Proc
  | putProc (file : String) : Proc
  deriving DecidableEq

/-- Per-file event of the WritingFiles loop (source lines 95-108):
a successful `obmpy put`, a skip (`already writed`), a failed put
(non-zero exit, rejecting the run) or a put whose process never settled. -/
inductive WriteEvent where
  | wrote (file : String) : WriteEvent
  | skipped (file : String) : WriteEvent
  | putFailed (file : String) : WriteEvent
  | putHang (file : String) : WriteEvent
  deriving DecidableEq

/-- Result of the WritingFiles loop as a whole. -/
inductive WriteOutcome where
  | done : WriteOutcome
  | failed (e : String) : WriteOutcome
  | hang : WriteOutcome
  deriving DecidableEq

/-- The mutable device-tracking fields of the `MicroPython` instance:
`_existedLibFile` (line 34), `_bfree` (line 35) and `_bsize` (line 36). -/
structure DeviceState where
  existedLibFile : List String
  bfree : Int
  bsize : Nat
  deriving DecidableEq

/-- Constructor values of the tracked fields (lines 34-36):
`[]`, `-1`, `0`. -/
def initialState : DeviceState := ⟨[], -1, 0⟩

/-- Environment of one run: the result of `fs.writeFileSync` on the project
file, and for each external process its exit behaviour plus the parsed data
its stdout handler would store. -/
structure Env where
  writeCode : Except String Unit
  lsRes : ProcResult
  lsData : Option (List String)
  spaceRes : ProcResult
  spaceData : Option (Nat × Int)
  eraseRes : ProcResult
  flashRes : ProcResult
  kflashRes : ProcResult
  putRes : String → ProcResult
  fileSize : String → Nat

/-- Observable result of one provisioning run: final tracked state, the
external processes that were spawned (in order), whether `flashFirmware` was
invoked, and the settled promise value (`none` when the run hangs on an
unhandled launch failure). -/
structure RunResult where
  finalState : DeviceState
  procs : List Proc
  reflashed : Bool
  outcome : Option (Except String (List WriteEvent))

/-- The filename key used for comparisons, from
`file.substring(file.lastIndexOf('\\') + 1)` (lines 96 and 119): the suffix of
the path after its last backslash, or the whole path when it has none. -/
def fileNameOf (file : String) : String :=
  String.mk ((file.data.reverse.takeWhile (fun ch => !(ch == '\\'))).reverse)

/-- The shared condition of lines 97-98 and 120-121:
`pushed = existed.find(item => fileName === item)` is truthy exactly when the
extracted name is in the list and is nonempty (the empty string is falsy in
JS), and the file is processed when `!pushed || fileName === 'main.py'`. -/
def willWrite (existed : List String) (file : String) : Bool :=
  let fileName := fileNameOf file
  !(existed.contains fileName && fileName != "") || fileName == "main.py"

/-- Space units one file costs, per chip family (lines 122-129): the raw byte
count for k210, ceiling division by the block size otherwise.  Faithful to the
JS arithmetic for `bsize > 0`. -/
def requiredUnits (boardType : String) (bsize fileSize : Nat) : Nat :=
  if boardType == "k210" then fileSize else (fileSize + bsize - 1) / bsize

/-- Model of `judgeReflashFirmware` (lines 116-142): sum the units of every file that
would be written, then compare against the remembered free space with the
family's headroom threshold (100 bytes for k210, 2 blocks otherwise). -/
def judgeReflashFirmware (fileSize : String → Nat) (fileToPut existed : List String)
    (bfree : Int) (bsize : Nat) (boardType : String) : Bool :=
  let totalSize := fileToPut.foldl (fun acc file =>
    if willWrite existed file then
      acc + (if boardType == "k210" then fileSize file else (fileSize file + bsize - 1) / bsize)
    else acc) 0
  if boardType == "k210" then decide (bfree * (bsize : Int) - (totalSize : Int) < 100)
  else decide (bfree - (totalSize : Int) < 2)

/-- Manifest construction (lines 40-61): the project `main.py` path first,
then, for each existing library directory, its entries joined to it. -/
def buildFileToPut (codefilePath : String) (library : List String)
    (fsExists : String → Bool) (readdir : String → List String)
    (pjoin : String → String → String) : List String :=
  codefilePath :: library.foldl
    (fun acc lib => if fsExists lib then acc ++ (readdir lib).map (pjoin lib) else acc) []

/-- State effect of `checkLibFileList`'s stdout handler (line 204): store the
parsed listing; when no data event fires the field keeps its prior value. -/
def checkLibFileList (lsData : Option (List String)) (s : DeviceState) : DeviceState :=
  { s with existedLibFile := lsData.getD s.existedLibFile }

/-- State effect of `checkRestSpace`'s stdout handler (lines 168-169): store
the reported block size and free-block count, unvalidated. -/
def checkRestSpace (spaceData : Option (Nat × Int)) (s : DeviceState) : DeviceState :=
  match spaceData with
  | some p => { s with bsize := p.1, bfree := p.2 }
  | none => s

/-- Model of `espflashFirmware` (lines 256-324): run the eraser; only when it exits 0,
build the writer arguments (rejecting `unknown chip type` for any other chip)
and run the writer.  Non-zero exits reject with the named errors of lines 275
and 311; a launch failure settles nothing. -/
def espflashFirmware (eraseRes flashRes : ProcResult) (chip : String) :
    List Proc × Option (Except String Unit) :=
  match eraseRes with
  | ProcResult.exit c =>
    if c = some 0 then
      if chip == "esp32" || chip == "esp8266" then
        match flashRes with
        | ProcResult.exit d =>
          if d = some 0 then ([Proc.eraseProc, Proc.writeProc], some (Except.ok ()))
          else ([Proc.eraseProc, Proc.writeProc], some (Except.error "esptool failed flash"))
        | ProcResult.launchError => ([Proc.eraseProc, Proc.writeProc], none)
      else ([Proc.eraseProc], some (Except.error "unknown chip type"))
    else ([Proc.eraseProc], some (Except.error "esptool failed to erase"))
  | ProcResult.launchError => ([Proc.eraseProc], none)

/-- Model of `k210flashFirmware` (lines 326-356): one kflash invocation; exit 0
resolves, any other exit rejects `kflash failed flash`. -/
def k210flashFirmware (kflashRes : ProcResult) : List Proc × Option (Except String Unit) :=
  match kflashRes with
  | ProcResult.exit c =>
    if c = some 0 then ([Proc.kflashProc], some (Except.ok ()))
    else ([Proc.kflashProc], some (Except.error "kflash failed flash"))
  | ProcResult.launchError => ([Proc.kflashProc], none)

/-- Model of `flashFirmware` (lines 247-254): dispatch on the configured chip family,
rejecting `unknown chip type` for unsupported families before any spawn. -/
def flashFirmware (eraseRes flashRes kflashRes : ProcResult) (chip : String) :
    List Proc × Option (Except String Unit) :=
  if chip == "esp32" || chip == "esp8266" then espflashFirmware eraseRes flashRes chip
  else if chip == "k210" then k210flashFirmware kflashRes
  else ([], some (Except.error "unknown chip type"))

/-- The WritingFiles loop (lines 95-108): for each manifest file in order,
write it via `obmpyPut` unless the shared condition skips it; the first put
that exits non-zero rejects the run with `obmpy failed to write` (line 241)
and no later file is processed. -/
def writeFiles (putRes : String → ProcResult) (existed : List String) :
    List String → List WriteEvent × WriteOutcome
  | [] => ([], WriteOutcome.done)
  | f :: rest =>
    if willWrite existed f then
      match putRes f with
      | ProcResult.exit c =>
        if c = some 0 then
          let p := writeFiles putRes existed rest
          (WriteEvent.wrote f :: p.1, p.2)
        else ([WriteEvent.putFailed f], WriteOutcome.failed "obmpy failed to write")
      | ProcResult.launchError => ([WriteEvent.putHang f], WriteOutcome.hang)
    else
      let p := writeFiles putRes existed rest
      (WriteEvent.skipped f :: p.1, p.2)

/-- The file of a write event. -/
def eventFile : WriteEvent → String
  | WriteEvent.wrote f => f
  | WriteEvent.skipped f => f
  | WriteEvent.putFailed f => f
  | WriteEvent.putHang f => f

/-- The put processes spawned by a trace of write events. -/
def putProcsOf (evs : List WriteEvent) : List Proc :=
  evs.filterMap (fun ev =>
    match ev with
    | WriteEvent.skipped _ => none
    | WriteEvent.wrote f => some (Proc.putProc f)
    | WriteEvent.putFailed f => some (Proc.putProc f)
    | WriteEvent.putHang f => some (Proc.putProc f))

/-- Entering the WritingFiles phase (line 93 onwards) from a given tracked
state, remembering whether a firmware reflash was performed before it. -/
def writingPhase (putRes : String → ProcResult) (s : DeviceState) (manifest : List String)
    (procs : List Proc) (didReflash : Bool) : RunResult :=
  let p := writeFiles putRes s.existedLibFile manifest
  match p.2 with
  | WriteOutcome.done => ⟨s, procs ++ putProcsOf p.1, didReflash, some (Except.ok p.1)⟩
  | WriteOutcome.failed e => ⟨s, procs ++ putProcsOf p.1, didReflash, some (Except.error e)⟩
  | WriteOutcome.hang => ⟨s, procs ++ putProcsOf p.1, didReflash, none⟩

/-- A reflash attempt followed, on success, by the WritingFiles phase: the
shape shared by the judge-triggered reflash (lines 69-81) and the catch-path
reflash (lines 82-91).  A reflash failure rejects the run with the flasher's
own error (lines 78-80 and 86-90). -/
def runCatchReflash (putRes : String → ProcResult) (fr : List Proc × Option (Except String Unit))
    (s : DeviceState) (manifest : List String) (procs0 : List Proc) : RunResult :=
  match fr.2 with
  | some (Except.ok _) => writingPhase putRes s manifest (procs0 ++ fr.1) true
  | some (Except.error e) => ⟨s, procs0 ++ fr.1, true, some (Except.error e)⟩
  | none => ⟨s, procs0 ++ fr.1, true, none⟩

/-- One provisioning run, `MicroPython.flash` (lines 39-112), for a given
manifest and starting tracked state.  A failing `fs.writeFileSync` rejects at
once (lines 46-50).  `checkLibFileList` then `checkRestSpace` run inside the
try block; a non-zero exit of either lands in the catch, which reflashes the
firmware WITHOUT clearing `_existedLibFile` (lines 82-91).  When both succeed,
`judgeReflashFirmware` decides; a judge-triggered reflash clears
`_existedLibFile` first (line 76).  A successful (or skipped) reflash is
followed by the WritingFiles loop. -/
def flash (env : Env) (chip : String) (manifest : List String) (s0 : DeviceState) : RunResult :=
  match env.writeCode with
  | Except.error e => ⟨s0, [], false, some (Except.error e)⟩
  | Except.ok _ =>
    match env.lsRes with
    | ProcResult.launchError => ⟨s0, [Proc.lsProc], false, none⟩
    | ProcResult.exit c =>
      let s1 := checkLibFileList env.lsData s0
      if c = some 0 then
        match env.spaceRes with
        | ProcResult.launchError => ⟨s1, [Proc.lsProc, Proc.spaceProc], false, none⟩
        | ProcResult.exit c2 =>
          let s2 := checkRestSpace env.spaceData s1
          if c2 = some 0 then
            if judgeReflashFirmware env.fileSize manifest s2.existedLibFile s2.bfree s2.bsize chip then
              runCatchReflash env.putRes (flashFirmware env.eraseRes env.flashRes env.kflashRes chip)
                { s2 with existedLibFile := [] } manifest [Proc.lsProc, Proc.spaceProc]
            else
              writingPhase env.putRes s2 manifest [Proc.lsProc, Proc.spaceProc] false
          else
            runCatchReflash env.putRes (flashFirmware env.eraseRes env.flashRes env.kflashRes chip)
              s2 manifest [Proc.lsProc, Proc.spaceProc]
      else
        runCatchReflash env.putRes (flashFirmware env.eraseRes env.flashRes env.kflashRes chip)
          s1 manifest [Proc.lsProc]

/-- Split a character list at every occurrence of `c`, as JS
`String.prototype.split` does: `splitOnChar c []` is `[[]]`, and separators at
the ends produce empty pieces. -/
def splitOnChar (c : Char) : List Char → List (List Char)
  | [] => [[]]
  | a :: rest =>
    match splitOnChar c rest with
    | [] => [[]]
    | h :: t => if a = c then [] :: h :: t else (a :: h) :: t

/-- Parsing of the `ls` output (lines 200-205): trim, delete every `/` and
carriage return (the replace call of line 203), then split on
newlines. -/
def parseLsOutput (raw : String) : List String :=
  (splitOnChar '\n' (raw.trim.data.filter (fun ch => !(ch == '/') && !(ch == '\r')))).map String.mk

/-- Modelled from the claim text of C2: the per-file selection the claim
describes, namely `the program entry file or absent from the existing-file
list`, with nothing said about empty extracted names. -/
def claimSelected (existed : List String) (file : String) : Bool :=
  fileNameOf file == "main.py" || !(existed.contains (fileNameOf file))

/-- Modelled from the claim text of C2: total units summed over exactly the
files `claimSelected` picks. -/
def claimTotalUnits (fileSize : String → Nat) (existed : List String) (bsize : Nat)
    (boardType : String) : List String → Nat
  | [] => 0
  | f :: rest =>
    (if claimSelected existed f then requiredUnits boardType bsize (fileSize f) else 0)
      + claimTotalUnits fileSize existed bsize boardType rest

/-- Total units over the files the code actually counts: the entry file, files
absent from the list, and files whose extracted name is empty (the JS find
result is the empty string, which is falsy). -/
def amendedTotalUnits (fileSize : String → Nat) (existed : List String) (bsize : Nat)
    (boardType : String) : List String → Nat
  | [] => 0
  | f :: rest =>
    (if fileNameOf f = "main.py" ∨ fileNameOf f ∉ existed ∨ fileNameOf f = ""
     then requiredUnits boardType bsize (fileSize f) else 0)
      + amendedTotalUnits fileSize existed bsize boardType rest

/-! ### Helper lemmas -/

/-- Characterization of the shared write/count condition: a file is processed
exactly when its extracted name is the entry name, is absent from the list, or
is empty (empty strings are falsy in JS). -/
theorem willWrite_iff (existed : List String) (f : String) :
    willWrite existed f = true ↔
      (fileNameOf f = "main.py" ∨ fileNameOf f ∉ existed ∨ fileNameOf f = "") := by
  by_cases hm : fileNameOf f = "main.py" <;> by_cases he : fileNameOf f ∈ existed <;>
    by_cases hz : fileNameOf f = "" <;>
    simp [willWrite, hm, he, hz, List.elem_iff]

/-- A file is skipped exactly when its extracted name is nonempty, present in
the list and not the entry name. -/
theorem willWrite_false_iff (existed : List String) (f : String) :
    willWrite existed f = false ↔
      (fileNameOf f ∈ existed ∧ fileNameOf f ≠ "" ∧ fileNameOf f ≠ "main.py") := by
  rw [← Bool.not_eq_true, willWrite_iff]
  push_neg
  tauto

/-- Natural ceiling division `(s + b - 1) / b` is the ceiling of the exact
quotient when the divisor is positive. -/
theorem cdiv_eq_ceil (b s : Nat) (hb : 0 < b) :
    (((s + b - 1) / b : Nat) : ℤ) = ⌈(s : ℚ) / (b : ℚ)⌉ := by
  have hq := Nat.div_add_mod (s + b - 1) b
  have hr : (s + b - 1) % b < b := Nat.mod_lt _ hb
  set q := (s + b - 1) / b with hqdef
  have h1 : s ≤ b * q := by omega
  have h2 : b * q < s + b := by omega
  have hbq : (0 : ℚ) < (b : ℚ) := by exact_mod_cast hb
  have h1q : (s : ℚ) ≤ (b : ℚ) * (q : ℚ) := by exact_mod_cast h1
  have h2q : (b : ℚ) * (q : ℚ) < (s : ℚ) + (b : ℚ) := by exact_mod_cast h2
  symm
  rw [Int.ceil_eq_iff]
  constructor
  · push_cast
    rw [lt_div_iff₀ hbq]
    nlinarith
  · push_cast
    rw [div_le_iff₀ hbq]
    nlinarith

/-! ### C3 -/

/-- C3: for every file size and positive block size, the per-file space unit
is the raw byte count for the k210 family and exactly `ceil(size / blockSize)`
for the esp32 and esp8266 families, and for every family it is monotonically
non-decreasing in the file size. -/
theorem C3_requiredUnits_exact_and_monotone (b s t : Nat) (hb : 0 < b) (hst : s ≤ t) :
    requiredUnits "k210" b s = s ∧
    ((requiredUnits "esp32" b s : Nat) : ℤ) = ⌈(s : ℚ) / (b : ℚ)⌉ ∧
    ((requiredUnits "esp8266" b s : Nat) : ℤ) = ⌈(s : ℚ) / (b : ℚ)⌉ ∧
    (∀ chip : String, requiredUnits chip b s ≤ requiredUnits chip b t) := by
  refine ⟨rfl, ?_, ?_, ?_⟩
  · have h : requiredUnits "esp32" b s = (s + b - 1) / b := rfl
    rw [h]
    exact cdiv_eq_ceil b s hb
  · have h : requiredUnits "esp8266" b s = (s + b - 1) / b := rfl
    rw [h]
    exact cdiv_eq_ceil b s hb
  · intro chip
    unfold requiredUnits
    cases hk : (chip == "k210")
    · simp only [Bool.false_eq_true, if_false]
      exact Nat.div_le_div_right (by omega)
    · simp only [if_true]
      exact hst

/-- Witness for C3 at block size 16 and file sizes 50 and 51. -/
theorem C3_witness :
    0 < 16 ∧ 50 ≤ 51 ∧
      (requiredUnits "k210" 16 50 = 50 ∧
       ((requiredUnits "esp32" 16 50 : Nat) : ℤ) = ⌈((50 : Nat) : ℚ) / ((16 : Nat) : ℚ)⌉ ∧
       ((requiredUnits "esp8266" 16 50 : Nat) : ℤ) = ⌈((50 : Nat) : ℚ) / ((16 : Nat) : ℚ)⌉ ∧
       (∀ chip : String, requiredUnits chip 16 50 ≤ requiredUnits chip 16 51)) :=
  ⟨by decide, by decide, C3_requiredUnits_exact_and_monotone 16 50 51 (by decide) (by decide)⟩

/-! ### C10 -/

/-- C10: when writing the user program to the local project file fails, the
run rejects with that filesystem error at once: no external process has been
spawned and the tracked device state is unchanged. -/
theorem C10_writeFileSync_failure (env : Env) (chip : String) (manifest : List String)
    (s0 : DeviceState) (e : String) (h : env.writeCode = Except.error e) :
    flash env chip manifest s0 = ⟨s0, [], false, some (Except.error e)⟩ := by
  unfold flash
  rw [h]

/-- Environment whose project-file write fails with a filesystem error. -/
def envC10 : Env :=
  { writeCode := Except.error "EACCES", lsRes := ProcResult.exit (some 0), lsData := none,
    spaceRes := ProcResult.exit (some 0), spaceData := none,
    eraseRes := ProcResult.exit (some 0), flashRes := ProcResult.exit (some 0),
    kflashRes := ProcResult.exit (some 0), putRes := fun _ => ProcResult.exit (some 0),
    fileSize := fun _ => 0 }

/-- Witness for C10. -/
theorem C10_witness :
    flash envC10 "esp32" ["p\\main.py"] initialState =
      ⟨initialState, [], false, some (Except.error "EACCES")⟩ :=
  C10_writeFileSync_failure envC10 "esp32" ["p\\main.py"] initialState "EACCES" rfl

/-! ### C1 -/

/-- Environment of a run in which the file listing succeeds (reporting
`foo.py` on the board), the space query exits non-zero, and the fallback
firmware reflash succeeds. -/
def envC1 : Env :=
  { writeCode := Except.ok (), lsRes := ProcResult.exit (some 0), lsData := some ["foo.py"],
    spaceRes := ProcResult.exit (some 1), spaceData := none,
    eraseRes := ProcResult.exit (some 0), flashRes := ProcResult.exit (some 0),
    kflashRes := ProcResult.exit (some 0), putRes := fun _ => ProcResult.exit (some 0),
    fileSize := fun _ => 10 }

/-- C1 (evaluation at the failing input): in the catch-path reflash triggered
by a space-query failure, `_existedLibFile` is NOT cleared (lines 82-91 have no
counterpart of line 76), so the WritingFiles phase still sees `foo.py` as
present and skips the manifest file `x\foo.py` even though the reflash erased
the board's filesystem. -/
theorem C1_catch_path_keeps_stale_list :
    (flash envC1 "esp32" ["p\\main.py", "x\\foo.py"] initialState).reflashed = true ∧
    (flash envC1 "esp32" ["p\\main.py", "x\\foo.py"] initialState).finalState.existedLibFile
      = ["foo.py"] ∧
    (flash envC1 "esp32" ["p\\main.py", "x\\foo.py"] initialState).outcome =
      some (Except.ok [WriteEvent.wrote "p\\main.py", WriteEvent.skipped "x\\foo.py"]) :=
  ⟨rfl, rfl, rfl⟩

/-! ### C2 counterexample -/

/-- C2 counterexample: with manifest `["a\\"]` (extracted filename empty),
existing list `[""]`, chip k210, 2 free blocks of size 100 and file size 150,
the code counts the file (a falsy `find` result) and reflashes, while the
claim's sum — over files that are the entry file or absent — is 0, and
`2 * 100 - 0 < 100` is false: the claimed iff fails at this input. -/
theorem C2_counterexample :
    judgeReflashFirmware (fun _ => 150) ["a\\"] [""] 2 100 "k210" = true ∧
    claimTotalUnits (fun _ => 150) [""] 100 "k210" ["a\\"] = 0 ∧
    ¬ ((2 : Int) * (100 : Int)
        - ((claimTotalUnits (fun _ => 150) [""] 100 "k210" ["a\\"] : Nat) : Int) < 100) := by
  refine ⟨rfl, rfl, by decide⟩

/-! ### C5 counterexample -/

/-- C5 counterexample: the manifest file `a\` is not the entry file and its
extracted filename (the empty string) is present in the existing-file list,
yet the code writes it instead of skipping it, because the JS `find` result is the
empty string, which is falsy. -/
theorem C5_counterexample :
    (writeFiles (fun _ => ProcResult.exit (some 0)) [""] ["a\\"]).1 = [WriteEvent.wrote "a\\"] ∧
    fileNameOf "a\\" ≠ "main.py" ∧
    ([""].contains (fileNameOf "a\\")) = true := by
  refine ⟨rfl, by decide, by decide⟩

/-! ### WritingFiles loop trace -/

/-- Trace structure of the WritingFiles loop: the processed files are a prefix
of the manifest in order; a `done` outcome covers the whole manifest; a
`failed` outcome carries the message of line 241, ends the trace at the
failing put, and that put exited non-zero; every `wrote` event corresponds to
a put that exited zero. -/
theorem writeFiles_trace (pr : String → ProcResult) (ex : List String) (l : List String) :
    (∃ rest, l = ((writeFiles pr ex l).1.map eventFile) ++ rest ∧
      ((writeFiles pr ex l).2 = WriteOutcome.done → rest = [])) ∧
    (∀ e, (writeFiles pr ex l).2 = WriteOutcome.failed e →
      e = "obmpy failed to write" ∧
      ∃ f pre, (writeFiles pr ex l).1 = pre ++ [WriteEvent.putFailed f] ∧
        ∃ cd, pr f = ProcResult.exit cd ∧ cd ≠ some 0) ∧
    (∀ f, WriteEvent.wrote f ∈ (writeFiles pr ex l).1 → pr f = ProcResult.exit (some 0)) := by
  induction l with
  | nil =>
    refine ⟨⟨[], rfl, fun _ => rfl⟩, ?_, ?_⟩
    · intro e he
      simp [writeFiles] at he
    · intro f hf
      simp [writeFiles] at hf
  | cons a t ih =>
    obtain ⟨⟨rest, hrest, hdone⟩, hfail, hwrote⟩ := ih
    by_cases hw : willWrite ex a = true
    · cases hpa : pr a with
      | exit cd =>
        by_cases hcd : cd = some 0
        · subst hcd
          have hmain : writeFiles pr ex (a :: t) =
              (WriteEvent.wrote a :: (writeFiles pr ex t).1, (writeFiles pr ex t).2) := by
            simp [writeFiles, hw, hpa]
          rw [hmain]
          refine ⟨⟨rest, ?_, hdone⟩, ?_, ?_⟩
          · simp only [List.map_cons, List.cons_append, eventFile]
            exact congrArg (List.cons a) hrest
          · intro e he
            obtain ⟨hmsg, f, pre, htr, cd2, hcd2⟩ := hfail e he
            exact ⟨hmsg, f, WriteEvent.wrote a :: pre, by rw [htr]; rfl, cd2, hcd2⟩
          · intro f hf
            rcases List.mem_cons.mp hf with hf | hf
            · cases hf
              exact hpa
            · exact hwrote f hf
        · have hmain : writeFiles pr ex (a :: t) =
              ([WriteEvent.putFailed a], WriteOutcome.failed "obmpy failed to write") := by
            simp [writeFiles, hw, hpa, hcd]
          rw [hmain]
          refine ⟨⟨t, rfl, fun h => nomatch h⟩, ?_, ?_⟩
          · intro e he
            have hmsg : e = "obmpy failed to write" := by
              cases he
              rfl
            exact ⟨hmsg, a, [], rfl, cd, hpa, hcd⟩
          · intro f hf
            simp at hf
      | launchError =>
        have hmain : writeFiles pr ex (a :: t) =
            ([WriteEvent.putHang a], WriteOutcome.hang) := by
          simp [writeFiles, hw, hpa]
        rw [hmain]
        refine ⟨⟨t, rfl, fun h => nomatch h⟩, ?_, ?_⟩
        · intro e he
          exact absurd he (fun h => nomatch h)
        · intro f hf
          simp at hf
    · have hwf : willWrite ex a = false := by
        cases h : willWrite ex a
        · rfl
        · exact absurd h hw
      have hmain : writeFiles pr ex (a :: t) =
          (WriteEvent.skipped a :: (writeFiles pr ex t).1, (writeFiles pr ex t).2) := by
        simp [writeFiles, hwf]
      rw [hmain]
      refine ⟨⟨rest, ?_, hdone⟩, ?_, ?_⟩
      · simp only [List.map_cons, List.cons_append, eventFile]
        exact congrArg (List.cons a) hrest
      · intro e he
        obtain ⟨hmsg, f, pre, htr, cd2, hcd2⟩ := hfail e he
        exact ⟨hmsg, f, WriteEvent.skipped a :: pre, by rw [htr]; rfl, cd2, hcd2⟩
      · intro f hf
        rcases List.mem_cons.mp hf with hf | hf
        · exact absurd hf (fun h => nomatch h)
        · exact hwrote f hf

/-! ### C7 -/

/-- C7: the program entry file is always first in the manifest
(`fileToPut.push(this._codefilePath)` precedes every library push), files are
processed strictly in manifest order, each write must exit zero before the
next begins, and the first failing put ends the run as failed with no later
file processed. -/
theorem C7_manifest_order (codefilePath : String) (library : List String)
    (fsExists : String → Bool) (readdir : String → List String)
    (pjoin : String → String → String)
    (pr : String → ProcResult) (ex : List String) (l : List String) :
    (buildFileToPut codefilePath library fsExists readdir pjoin).head? = some codefilePath ∧
    ((∃ rest, l = ((writeFiles pr ex l).1.map eventFile) ++ rest ∧
      ((writeFiles pr ex l).2 = WriteOutcome.done → rest = [])) ∧
    (∀ e, (writeFiles pr ex l).2 = WriteOutcome.failed e →
      e = "obmpy failed to write" ∧
      ∃ f pre, (writeFiles pr ex l).1 = pre ++ [WriteEvent.putFailed f] ∧
        ∃ cd, pr f = ProcResult.exit cd ∧ cd ≠ some 0) ∧
    (∀ f, WriteEvent.wrote f ∈ (writeFiles pr ex l).1 → pr f = ProcResult.exit (some 0))) :=
  ⟨rfl, writeFiles_trace pr ex l⟩

/-- Witness for C7: the entry path heads a concretely built manifest. -/
theorem C7_witness :
    (buildFileToPut "p\\main.py" ["libdir"] (fun _ => true) (fun _ => ["a.py"])
      (fun a b => a ++ "\\" ++ b)).head? = some "p\\main.py" :=
  (C7_manifest_order "p\\main.py" ["libdir"] (fun _ => true) (fun _ => ["a.py"])
    (fun a b => a ++ "\\" ++ b) (fun _ => ProcResult.exit (some 0)) [] []).1

/-! ### C5 amended -/

/-- C5 (amended): the program entry file is always written, even when a
same-named file is in ExistingFileList; a manifest file that is not the entry
file, whose extracted filename is nonempty and present in ExistingFileList, is
skipped (reported as already written); but a file whose extracted filename is
empty is always written, because the JS `find` result is the empty string,
which is falsy. -/
theorem C5_amended_entry_and_skip (existed : List String) (f : String)
    (pr : String → ProcResult) (rest : List String) :
    (fileNameOf f = "main.py" → willWrite existed f = true) ∧
    (willWrite existed f = false ↔
      (fileNameOf f ∈ existed ∧ fileNameOf f ≠ "" ∧ fileNameOf f ≠ "main.py")) ∧
    (willWrite existed f = false →
      writeFiles pr existed (f :: rest) =
        (WriteEvent.skipped f :: (writeFiles pr existed rest).1, (writeFiles pr existed rest).2)) ∧
    (willWrite existed f = true → pr f = ProcResult.exit (some 0) →
      writeFiles pr existed (f :: rest) =
        (WriteEvent.wrote f :: (writeFiles pr existed rest).1, (writeFiles pr existed rest).2)) := by
  refine ⟨?_, willWrite_false_iff existed f, ?_, ?_⟩
  · intro h
    rw [willWrite_iff]
    exact Or.inl h
  · intro h
    simp [writeFiles, h]
  · intro h hp
    simp [writeFiles, h, hp]

/-- Witness for C5: a present library file is skipped, the entry name always
passes the write condition. -/
theorem C5_witness :
    willWrite ["lib.py"] "x\\lib.py" = false ∧
    willWrite ["main.py"] "p\\main.py" = true ∧
    writeFiles (fun _ => ProcResult.exit (some 0)) ["lib.py"] ["x\\lib.py"] =
      ([WriteEvent.skipped "x\\lib.py"], WriteOutcome.done) := by
  refine ⟨?_, ?_, ?_⟩
  · exact (C5_amended_entry_and_skip ["lib.py"] "x\\lib.py"
      (fun _ => ProcResult.exit (some 0)) []).2.1.mpr (by decide)
  · exact (C5_amended_entry_and_skip ["main.py"] "p\\main.py"
      (fun _ => ProcResult.exit (some 0)) []).1 (by decide)
  · rw [(C5_amended_entry_and_skip ["lib.py"] "x\\lib.py"
      (fun _ => ProcResult.exit (some 0)) []).2.2.1 (by decide)]
    rfl

/-! ### C2 amended -/

/-- The fold inside `judgeReflashFirmware` accumulates exactly the units of
the files its shared condition selects. -/
theorem judge_foldl_eq (σ : String → Nat) (ex : List String) (bt : String) (bs : Nat)
    (l : List String) : ∀ acc : Nat,
    l.foldl (fun acc file =>
      if willWrite ex file then
        acc + (if bt == "k210" then σ file else (σ file + bs - 1) / bs)
      else acc) acc = acc + amendedTotalUnits σ ex bs bt l := by
  induction l with
  | nil =>
    intro acc
    simp [amendedTotalUnits]
  | cons f t ih =>
    intro acc
    rw [List.foldl_cons]
    by_cases hw : willWrite ex f = true
    · rw [if_pos hw, ih]
      have hsel : fileNameOf f = "main.py" ∨ fileNameOf f ∉ ex ∨ fileNameOf f = "" :=
        (willWrite_iff ex f).mp hw
      have hamd : amendedTotalUnits σ ex bs bt (f :: t) =
          requiredUnits bt bs (σ f) + amendedTotalUnits σ ex bs bt t := by
        simp [amendedTotalUnits, hsel]
      have hru : (if bt == "k210" then σ f else (σ f + bs - 1) / bs)
          = requiredUnits bt bs (σ f) := rfl
      rw [hamd, hru]
      omega
    · have hnot : ¬(fileNameOf f = "main.py" ∨ fileNameOf f ∉ ex ∨ fileNameOf f = "") := by
        intro hcon
        exact hw ((willWrite_iff ex f).mpr hcon)
      rw [if_neg hw, ih]
      have hamd : amendedTotalUnits σ ex bs bt (f :: t) = amendedTotalUnits σ ex bs bt t := by
        simp [amendedTotalUnits, hnot]
      rw [hamd]

/-- C2 (amended): the reflash decision sums the per-file units over exactly
the manifest files that are the entry file, absent from the existing list, or
have an empty extracted filename (JS falsy `find` result), and reflashes iff
`freeBlocks * blockSize - totalUnits < 100` for k210 and iff
`freeBlocks - totalUnits < 2` for esp32/esp8266. -/
theorem C2_amended_threshold (σ : String → Nat) (manifest existed : List String)
    (bfree : Int) (bsize : Nat) (chip : String) (hb : 0 < bsize) :
    (chip = "k210" →
      (judgeReflashFirmware σ manifest existed bfree bsize chip = true ↔
        bfree * (bsize : Int) - (amendedTotalUnits σ existed bsize chip manifest : Int) < 100)) ∧
    ((chip = "esp32" ∨ chip = "esp8266") →
      (judgeReflashFirmware σ manifest existed bfree bsize chip = true ↔
        bfree - (amendedTotalUnits σ existed bsize chip manifest : Int) < 2)) := by
  have hfold := judge_foldl_eq σ existed chip bsize manifest 0
  constructor
  · intro hc
    subst hc
    simp only [judgeReflashFirmware, hfold, Nat.zero_add]
    simp
  · intro hc
    have hck : (chip == "k210") = false := by
      rcases hc with hc | hc <;> subst hc <;> decide
    simp only [hck, Bool.false_eq_true, if_false] at hfold
    simp only [judgeReflashFirmware, hck, Bool.false_eq_true, if_false, hfold, Nat.zero_add]
    simp

/-- Witness for C2 at the design document's scenario: esp32, block size 16,
10 free blocks, manifest sizes 50 and 30, nothing on the board. -/
theorem C2_witness :
    judgeReflashFirmware (fun f => if f == "p\\main.py" then 50 else 30)
        ["p\\main.py", "l\\a.py"] [] 10 16 "esp32" = true ↔
      (10 : Int) - ((amendedTotalUnits (fun f => if f == "p\\main.py" then 50 else 30)
        [] 16 "esp32" ["p\\main.py", "l\\a.py"] : Nat) : Int) < 2 :=
  (C2_amended_threshold (fun f => if f == "p\\main.py" then 50 else 30)
    ["p\\main.py", "l\\a.py"] [] 10 16 "esp32" (by decide)).2 (Or.inl rfl)

/-! ### Run-level helper lemmas -/

/-- The WritingFiles phase reports exactly the reflash flag it was entered
with. -/
theorem writingPhase_reflashed (pr : String → ProcResult) (s : DeviceState)
    (m : List String) (procs : List Proc) (b : Bool) :
    (writingPhase pr s m procs b).reflashed = b := by
  rcases h : (writeFiles pr s.existedLibFile m).2 <;> simp [writingPhase, h]

/-- The only error the WritingFiles phase can reject with is the put failure
message of line 241. -/
theorem writingPhase_outcome_error (pr : String → ProcResult) (s : DeviceState)
    (m : List String) (procs : List Proc) (b : Bool) (e : String)
    (h : (writingPhase pr s m procs b).outcome = some (Except.error e)) :
    e = "obmpy failed to write" := by
  rcases hw : (writeFiles pr s.existedLibFile m).2 with _ | e2 | _ <;>
    simp [writingPhase, hw] at h
  subst h
  exact ((writeFiles_trace pr s.existedLibFile m).2.1 _ hw).1

/-- A failed put makes the WritingFiles phase reject with that message. -/
theorem writingPhase_outcome_of_failed (pr : String → ProcResult) (s : DeviceState)
    (m : List String) (procs : List Proc) (b : Bool) (e : String)
    (h : (writeFiles pr s.existedLibFile m).2 = WriteOutcome.failed e) :
    (writingPhase pr s m procs b).outcome = some (Except.error e) := by
  simp [writingPhase, h]

/-- Both reflash paths mark the run as having invoked the firmware flasher. -/
theorem runCatchReflash_reflashed (pr : String → ProcResult)
    (fr : List Proc × Option (Except String Unit)) (s : DeviceState)
    (m : List String) (procs : List Proc) :
    (runCatchReflash pr fr s m procs).reflashed = true := by
  rcases hfr : fr.2 with _ | r
  · simp [runCatchReflash, hfr]
  · rcases r with e | u
    · simp [runCatchReflash, hfr]
    · simp [runCatchReflash, hfr, writingPhase_reflashed]

/-- An error surfaced after a reflash attempt is either the flasher's own
error or the put failure message of the subsequent WritingFiles phase. -/
theorem runCatchReflash_outcome_error (pr : String → ProcResult)
    (fr : List Proc × Option (Except String Unit)) (s : DeviceState)
    (m : List String) (procs : List Proc) (e : String)
    (h : (runCatchReflash pr fr s m procs).outcome = some (Except.error e)) :
    fr.2 = some (Except.error e) ∨ e = "obmpy failed to write" := by
  rcases hfr : fr.2 with _ | r
  · simp [runCatchReflash, hfr] at h
  · rcases r with e2 | u
    · simp only [runCatchReflash, hfr] at h
      simp at h
      subst h
      exact Or.inl rfl
    · simp only [runCatchReflash, hfr] at h
      exact Or.inr (writingPhase_outcome_error pr s m (procs ++ fr.1) true e h)

/-- A run that resolves after a reflash attempt had a successful reflash. -/
theorem runCatchReflash_outcome_ok (pr : String → ProcResult)
    (fr : List Proc × Option (Except String Unit)) (s : DeviceState)
    (m : List String) (procs : List Proc) (evs : List WriteEvent)
    (h : (runCatchReflash pr fr s m procs).outcome = some (Except.ok evs)) :
    fr.2 = some (Except.ok ()) := by
  rcases hfr : fr.2 with _ | r
  · simp [runCatchReflash, hfr] at h
  · rcases r with e2 | u
    · simp [runCatchReflash, hfr] at h
    · cases u
      rfl

/-! ### C4 -/

/-- C4: whenever the file-listing step or the space-query step exits non-zero,
the run proceeds to an unconditional firmware reflash; the discovery failure
itself is never the run's error (any rejection is the flasher's own error or a
later write failure), and the run resolves only if the reflash succeeded — it
never reaches WritingFiles directly. -/
theorem C4_discovery_failure_reflashes (env : Env) (chip : String) (manifest : List String)
    (s0 : DeviceState) (hw : env.writeCode = Except.ok ())
    (h : (∃ c, env.lsRes = ProcResult.exit c ∧ c ≠ some 0) ∨
         (env.lsRes = ProcResult.exit (some 0) ∧
          ∃ c, env.spaceRes = ProcResult.exit c ∧ c ≠ some 0)) :
    (flash env chip manifest s0).reflashed = true ∧
    (∀ e, (flash env chip manifest s0).outcome = some (Except.error e) →
      (flashFirmware env.eraseRes env.flashRes env.kflashRes chip).2 = some (Except.error e) ∨
      e = "obmpy failed to write") ∧
    (∀ evs, (flash env chip manifest s0).outcome = some (Except.ok evs) →
      (flashFirmware env.eraseRes env.flashRes env.kflashRes chip).2 = some (Except.ok ())) := by
  rcases h with ⟨c, hc, hne⟩ | ⟨hls, c, hsp, hne⟩
  · have hflash : flash env chip manifest s0 =
        runCatchReflash env.putRes (flashFirmware env.eraseRes env.flashRes env.kflashRes chip)
          (checkLibFileList env.lsData s0) manifest [Proc.lsProc] := by
      simp [flash, hw, hc, hne]
    rw [hflash]
    exact ⟨runCatchReflash_reflashed _ _ _ _ _,
      fun e he => runCatchReflash_outcome_error _ _ _ _ _ e he,
      fun evs he => runCatchReflash_outcome_ok _ _ _ _ _ evs he⟩
  · have hflash : flash env chip manifest s0 =
        runCatchReflash env.putRes (flashFirmware env.eraseRes env.flashRes env.kflashRes chip)
          (checkRestSpace env.spaceData (checkLibFileList env.lsData s0)) manifest
          [Proc.lsProc, Proc.spaceProc] := by
      simp [flash, hw, hls, hsp, hne]
    rw [hflash]
    exact ⟨runCatchReflash_reflashed _ _ _ _ _,
      fun e he => runCatchReflash_outcome_error _ _ _ _ _ e he,
      fun evs he => runCatchReflash_outcome_ok _ _ _ _ _ evs he⟩

/-- Environment whose file listing exits non-zero. -/
def envC4 : Env :=
  { writeCode := Except.ok (), lsRes := ProcResult.exit (some 1), lsData := none,
    spaceRes := ProcResult.exit (some 0), spaceData := none,
    eraseRes := ProcResult.exit (some 0), flashRes := ProcResult.exit (some 0),
    kflashRes := ProcResult.exit (some 0), putRes := fun _ => ProcResult.exit (some 0),
    fileSize := fun _ => 0 }

/-- Witness for C4. -/
theorem C4_witness :
    (flash envC4 "esp32" ["p\\main.py"] initialState).reflashed = true :=
  (C4_discovery_failure_reflashes envC4 "esp32" ["p\\main.py"] initialState rfl
    (Or.inl ⟨some 1, rfl, by decide⟩)).1

/-! ### C6 -/

/-- Environment whose successful space query reports a block size of zero. -/
def envC6 : Env :=
  { writeCode := Except.ok (), lsRes := ProcResult.exit (some 0), lsData := some [],
    spaceRes := ProcResult.exit (some 0), spaceData := some (0, 5),
    eraseRes := ProcResult.exit (some 0), flashRes := ProcResult.exit (some 0),
    kflashRes := ProcResult.exit (some 0), putRes := fun _ => ProcResult.exit (some 0),
    fileSize := fun _ => 10 }

/-- C6 counterexample: a space query that exits zero while reporting
`bsize = 0` stores a zero block size (lines 168-169 store the reported fields
unvalidated), and the run then evaluates the space-unit division with that
stored zero: a successful space query does NOT guarantee a positive block
size. -/
theorem C6_counterexample :
    envC6.spaceRes = ProcResult.exit (some 0) ∧
    (checkRestSpace envC6.spaceData (checkLibFileList envC6.lsData initialState)).bsize = 0 ∧
    (flash envC6 "esp32" ["a\\b.py"] initialState).finalState.bsize = 0 :=
  ⟨rfl, rfl, rfl⟩

/-- C6 (amended): the space-unit division is evaluated only in runs whose
listing and space query both exited zero — when either fails, the run's result
does not depend on the file sizes at all — and when both succeed it is
evaluated with exactly the stored reported block size, which is unvalidated
and may be zero. -/
theorem C6_amended_division_context (env : Env) (chip : String) (m : List String)
    (s0 : DeviceState) (σ τ : String → Nat) (hw : env.writeCode = Except.ok ()) :
    (((∃ c, env.lsRes = ProcResult.exit c ∧ c ≠ some 0) ∨
      (env.lsRes = ProcResult.exit (some 0) ∧
       ∃ c, env.spaceRes = ProcResult.exit c ∧ c ≠ some 0)) →
      flash { env with fileSize := σ } chip m s0 = flash { env with fileSize := τ } chip m s0) ∧
    (∀ bs bf, env.lsRes = ProcResult.exit (some 0) → env.spaceRes = ProcResult.exit (some 0) →
      env.spaceData = some (bs, bf) →
      (flash env chip m s0).reflashed =
        judgeReflashFirmware env.fileSize m (env.lsData.getD s0.existedLibFile) bf bs chip) := by
  constructor
  · intro h
    rcases h with ⟨c, hc, hne⟩ | ⟨hls, c, hsp, hne⟩
    · simp [flash, hw, hc, hne]
    · simp [flash, hw, hls, hsp, hne]
  · intro bs bf hls hsp hsd
    simp only [flash, hw, hls, hsp, hsd]
    simp only [checkRestSpace, checkLibFileList]
    cases hj : judgeReflashFirmware env.fileSize m (env.lsData.getD s0.existedLibFile) bf bs chip
    · simp [hj, writingPhase_reflashed]
    · simp [hj, runCatchReflash_reflashed]

/-- Environment with a fully successful discovery reporting block size 16 and
10 free blocks. -/
def envC6w : Env :=
  { writeCode := Except.ok (), lsRes := ProcResult.exit (some 0), lsData := some ["a.py"],
    spaceRes := ProcResult.exit (some 0), spaceData := some (16, 10),
    eraseRes := ProcResult.exit (some 0), flashRes := ProcResult.exit (some 0),
    kflashRes := ProcResult.exit (some 0), putRes := fun _ => ProcResult.exit (some 0),
    fileSize := fun _ => 50 }

/-- Witness for C6. -/
theorem C6_witness :
    (flash envC6w "esp32" ["p\\main.py"] initialState).reflashed =
      judgeReflashFirmware envC6w.fileSize ["p\\main.py"]
        (envC6w.lsData.getD initialState.existedLibFile) 10 16 "esp32" :=
  (C6_amended_division_context envC6w "esp32" ["p\\main.py"] initialState
    (fun _ => 0) (fun _ => 0) rfl).2 16 10 rfl rfl rfl

/-! ### C8 -/

/-- C8 counterexample: a launch failure of the eraser does not abort the flash
with a named error — no `error` listener exists, so the operation never
settles (outcome `none`) instead of rejecting. -/
theorem C8_counterexample :
    (flashFirmware ProcResult.launchError (ProcResult.exit (some 0))
      (ProcResult.exit (some 0)) "esp32").2 = none :=
  rfl

/-- C8 (amended): a firmware-reflash failure, a file-write failure or an
unknown chip family is fatal with the originating named error; in the
esp32/esp8266 strategy the eraser runs first and the writer runs only after
the eraser exits zero, and a NON-ZERO EXIT of either step aborts the flash
with a named error — but a launch failure of either step is unhandled and the
operation never settles instead of rejecting. -/
theorem C8_amended_fatal_errors (er fl kf : ProcResult) (chip : String) (env : Env)
    (m : List String) (s0 : DeviceState) :
    (chip ≠ "esp32" → chip ≠ "esp8266" → chip ≠ "k210" →
      flashFirmware er fl kf chip = ([], some (Except.error "unknown chip type"))) ∧
    (∀ c, er = ProcResult.exit c → c ≠ some 0 →
      espflashFirmware er fl chip =
        ([Proc.eraseProc], some (Except.error "esptool failed to erase"))) ∧
    ((chip = "esp32" ∨ chip = "esp8266") → er = ProcResult.exit (some 0) →
      ∀ d, fl = ProcResult.exit d → d ≠ some 0 →
      espflashFirmware er fl chip =
        ([Proc.eraseProc, Proc.writeProc], some (Except.error "esptool failed flash"))) ∧
    (Proc.writeProc ∈ (espflashFirmware er fl chip).1 → er = ProcResult.exit (some 0)) ∧
    (∀ c, kf = ProcResult.exit c → c ≠ some 0 →
      k210flashFirmware kf = ([Proc.kflashProc], some (Except.error "kflash failed flash"))) ∧
    (env.writeCode = Except.ok () → (∃ c, env.lsRes = ProcResult.exit c ∧ c ≠ some 0) →
      ∀ e, (flashFirmware env.eraseRes env.flashRes env.kflashRes chip).2 =
          some (Except.error e) →
      (flash env chip m s0).outcome = some (Except.error e)) ∧
    (∀ e, (writeFiles env.putRes s0.existedLibFile m).2 = WriteOutcome.failed e →
      (writingPhase env.putRes s0 m [] false).outcome = some (Except.error e)) := by
  refine ⟨?_, ?_, ?_, ?_, ?_, ?_, ?_⟩
  · intro h1 h2 h3
    have b1 : (chip == "esp32") = false := beq_eq_false_iff_ne.mpr h1
    have b2 : (chip == "esp8266") = false := beq_eq_false_iff_ne.mpr h2
    have b3 : (chip == "k210") = false := beq_eq_false_iff_ne.mpr h3
    simp [flashFirmware, b1, b2, b3]
  · intro c hc hne
    subst hc
    simp [espflashFirmware, hne]
  · intro hchip her d hd hned
    subst her
    subst hd
    rcases hchip with hc | hc <;> subst hc <;> simp [espflashFirmware, hned]
  · intro hmem
    cases er with
    | launchError =>
      simp [espflashFirmware] at hmem
    | exit c =>
      by_cases hc : c = some 0
      · subst hc
        rfl
      · simp [espflashFirmware, hc] at hmem
  · intro c hc hne
    subst hc
    simp [k210flashFirmware, hne]
  · intro hw hls e he
    rcases hls with ⟨c, hc, hne⟩
    have hflash : flash env chip m s0 =
        runCatchReflash env.putRes (flashFirmware env.eraseRes env.flashRes env.kflashRes chip)
          (checkLibFileList env.lsData s0) m [Proc.lsProc] := by
      simp [flash, hw, hc, hne]
    rw [hflash]
    simp [runCatchReflash, he]
  · intro e he
    exact writingPhase_outcome_of_failed env.putRes s0 m [] false e he

/-- Neutral environment used to instantiate the C8 witness. -/
def envC8 : Env :=
  { writeCode := Except.ok (), lsRes := ProcResult.exit (some 0), lsData := none,
    spaceRes := ProcResult.exit (some 0), spaceData := none,
    eraseRes := ProcResult.exit (some 0), flashRes := ProcResult.exit (some 0),
    kflashRes := ProcResult.exit (some 0), putRes := fun _ => ProcResult.exit (some 0),
    fileSize := fun _ => 0 }

/-- Witness for C8: unknown chip, failed erase, failed write and failed kflash
each produce their named error, with the writer never spawned after a failed
erase. -/
theorem C8_witness :
    flashFirmware (ProcResult.exit (some 0)) (ProcResult.exit (some 0))
        (ProcResult.exit (some 0)) "avr" = ([], some (Except.error "unknown chip type")) ∧
    espflashFirmware (ProcResult.exit (some 2)) (ProcResult.exit (some 0)) "esp32"
      = ([Proc.eraseProc], some (Except.error "esptool failed to erase")) ∧
    espflashFirmware (ProcResult.exit (some 0)) (ProcResult.exit (some 3)) "esp32"
      = ([Proc.eraseProc, Proc.writeProc], some (Except.error "esptool failed flash")) ∧
    k210flashFirmware (ProcResult.exit (some 1))
      = ([Proc.kflashProc], some (Except.error "kflash failed flash")) :=
  ⟨(C8_amended_fatal_errors (ProcResult.exit (some 0)) (ProcResult.exit (some 0))
      (ProcResult.exit (some 0)) "avr" envC8 [] initialState).1
      (by decide) (by decide) (by decide),
   (C8_amended_fatal_errors (ProcResult.exit (some 2)) (ProcResult.exit (some 0))
      (ProcResult.exit (some 0)) "esp32" envC8 [] initialState).2.1
      (some 2) rfl (by decide),
   (C8_amended_fatal_errors (ProcResult.exit (some 0)) (ProcResult.exit (some 3))
      (ProcResult.exit (some 0)) "esp32" envC8 [] initialState).2.2.1
      (Or.inl rfl) rfl (some 3) rfl (by decide),
   (C8_amended_fatal_errors (ProcResult.exit (some 0)) (ProcResult.exit (some 0))
      (ProcResult.exit (some 1)) "esp32" envC8 [] initialState).2.2.2.2.1
      (some 1) rfl (by decide)⟩

/-! ### C9 -/

/-- Taking while over a satisfying prefix stops exactly at the first failing
element. -/
theorem takeWhile_all_append (p : Char → Bool) (l1 : List Char) (c : Char) (l2 : List Char)
    (h1 : ∀ x ∈ l1, p x = true) (hc : p c = false) :
    (l1 ++ c :: l2).takeWhile p = l1 := by
  induction l1 with
  | nil => simp [List.takeWhile_cons, hc]
  | cons a t ih =>
    have ha : p a = true := h1 a (List.mem_cons_self a t)
    simp only [List.cons_append, List.takeWhile_cons, ha, if_true]
    rw [ih (fun x hx => h1 x (List.mem_cons_of_mem a hx))]

/-- Every character of every piece of a split comes from the split input. -/
theorem mem_splitOnChar_subset (c : Char) (l : List Char) (piece : List Char)
    (hp : piece ∈ splitOnChar c l) : ∀ x ∈ piece, x ∈ l := by
  induction l generalizing piece with
  | nil =>
    simp [splitOnChar] at hp
    subst hp
    intro x hx
    cases hx
  | cons a rest ih =>
    intro x hx
    rcases hsp : splitOnChar c rest with _ | ⟨h, t⟩
    · simp only [splitOnChar, hsp] at hp
      simp at hp
      subst hp
      cases hx
    · simp only [splitOnChar, hsp] at hp
      by_cases hac : a = c
      · rw [if_pos hac] at hp
        rcases List.mem_cons.mp hp with rfl | hp2
        · cases hx
        · exact List.mem_cons_of_mem a (ih piece (by rw [hsp]; exact hp2) x hx)
      · rw [if_neg hac] at hp
        rcases List.mem_cons.mp hp with rfl | hp2
        · rcases List.mem_cons.mp hx with rfl | hx2
          · exact List.mem_cons_self _ _
          · have hh : h ∈ splitOnChar c rest := by
              rw [hsp]
              exact List.mem_cons_self h t
            exact List.mem_cons_of_mem a (ih h hh x hx2)
        · have hpt : piece ∈ splitOnChar c rest := by
            rw [hsp]
            exact List.mem_cons_of_mem h hp2
          exact List.mem_cons_of_mem a (ih piece hpt x hx)

/-- Names parsed from the board listing never contain a forward slash: the
parser deletes every `/` before splitting. -/
theorem parseLsOutput_no_slash (raw : String) (e : String) (he : e ∈ parseLsOutput raw) :
    '/' ∉ e.data := by
  intro hmem
  unfold parseLsOutput at he
  rcases List.mem_map.mp he with ⟨piece, hpiece, hmk⟩
  have hdata : e.data = piece := by rw [← hmk]
  have hin := mem_splitOnChar_subset '\n' _ piece hpiece '/' (by rw [← hdata]; exact hmem)
  rcases List.mem_filter.mp hin with ⟨_, hprop⟩
  simp at hprop

/-- A path with no backslash is its own comparison key. -/
theorem fileNameOf_no_backslash (p : String) (h : '\\' ∉ p.data) : fileNameOf p = p := by
  unfold fileNameOf
  have hall : p.data.reverse.takeWhile (fun ch => !(ch == '\\')) = p.data.reverse := by
    apply List.takeWhile_eq_self_iff.mpr
    intro x hx
    have hxp : x ∈ p.data := List.mem_reverse.mp hx
    have hne : x ≠ '\\' := fun he => h (he ▸ hxp)
    simp [hne]
  rw [hall, List.reverse_reverse]

/-- The comparison key of a path is the suffix after its last backslash. -/
theorem fileNameOf_append (a b : String) (h : '\\' ∉ b.data) :
    fileNameOf (a ++ "\\" ++ b) = b := by
  unfold fileNameOf
  have hdata : (a ++ "\\" ++ b).data = a.data ++ ['\\'] ++ b.data := rfl
  have hall : ∀ x ∈ b.data.reverse, (!(x == '\\')) = true := by
    intro x hx
    have hxp : x ∈ b.data := List.mem_reverse.mp hx
    have hne : x ≠ '\\' := fun he => h (he ▸ hxp)
    simp [hne]
  rw [hdata, List.append_assoc, List.singleton_append, List.reverse_append,
    List.reverse_cons]
  rw [List.append_assoc, List.singleton_append,
    takeWhile_all_append _ _ _ _ hall (by simp), List.reverse_reverse]

/-- C9: the comparison key used against ExistingFileList and against the
literal `main.py` is the substring after the last backslash, so a path with no
backslash is compared whole; an absolute POSIX-style path (containing `/`, no
backslash) never equals a board-reported name — the listing parser strips
every `/` — and therefore always passes the write condition: presence-based
skipping cannot happen for such paths. -/
theorem C9_separator_key (p a b raw : String) :
    ('\\' ∉ p.data → fileNameOf p = p) ∧
    ('\\' ∉ b.data → fileNameOf (a ++ "\\" ++ b) = b) ∧
    ('\\' ∉ p.data → '/' ∈ p.data →
      p ∉ parseLsOutput raw ∧ willWrite (parseLsOutput raw) p = true) := by
  refine ⟨fileNameOf_no_backslash p, fileNameOf_append a b, ?_⟩
  intro hnb hs
  have hnotmem : p ∉ parseLsOutput raw := fun hmem => parseLsOutput_no_slash raw p hmem hs
  refine ⟨hnotmem, ?_⟩
  have hfn : fileNameOf p = p := fileNameOf_no_backslash p hnb
  have hcont : (parseLsOutput raw).contains (fileNameOf p) = false := by
    rw [hfn]
    cases hcb : (parseLsOutput raw).contains p
    · rfl
    · exact absurd (List.elem_iff.mp hcb) hnotmem
  simp [willWrite, hcont]
  rw [hfn]
  exact Or.inl (Or.inl hnotmem)

/-- Witness for C9 on a POSIX path and a board listing. -/
theorem C9_witness :
    fileNameOf "/home/u/main.py" = "/home/u/main.py" ∧
    fileNameOf ("dir" ++ "\\" ++ "a.py") = "a.py" ∧
    willWrite (parseLsOutput "a.py\nmain.py") "/home/u/main.py" = true :=
  ⟨(C9_separator_key "/home/u/main.py" "dir" "a.py" "a.py\nmain.py").1 (by decide),
   (C9_separator_key "/home/u/main.py" "dir" "a.py" "a.py\nmain.py").2.1 (by decide),
   ((C9_separator_key "/home/u/main.py" "dir" "a.py" "a.py\nmain.py").2.2
     (by decide) (by decide)).2⟩
